import Mathlib

/-!
Verification development for the dispatch core of the ignyx web framework
(Rust sources under src/: router.rs, request.rs, response.rs, middleware.rs,
server.rs, handler.rs).  The Rust code is shallowly embedded: HashMap and
PyDict values are modelled as association lists whose lookup behaviour
matches the originals, Python callables are modelled as Lean functions
returning Except, and raw request bytes are modelled by their observable
parse results.
-/

namespace Ignyx

/-- Association-list lookup; models reads of Rust HashMap and Python dict
(first matching key, and our insert keeps keys distinct). -/
def alookup {α : Type} (m : List (String × α)) (k : String) : Option α :=
  (m.find? (fun p => p.1 == k)).map (fun p => p.2)

/-- Association-list insert with overwrite; models HashMap::insert and
PyDict set_item (which replace the value of an existing key).  The
representation keeps keys distinct; iteration order of the Rust HashMap is
unspecified, so any order with the right lookup behaviour is faithful. -/
def ainsert {α : Type} (m : List (String × α)) (k : String) (v : α) :
    List (String × α) :=
  (k, v) :: m.filter (fun p => !(p.1 == k))

/-- Models HashMap::contains_key / PyDict contains. -/
def acontains {α : Type} (m : List (String × α)) (k : String) : Bool :=
  m.any (fun p => p.1 == k)

/-! ## Kernel-computable character-level string operations.
The Lean core String functions (splitOn, replace, toLower, startsWith) are
implemented with well-founded loops that the kernel cannot evaluate, so the
Rust string operations are embedded charwise over String.data instead. -/

/-- Rust str::split for a one-character separator (an empty input yields
one empty piece, adjacent separators yield empty pieces). -/
def listSplitOnChar (c : Char) : List Char → List (List Char)
  | [] => [[]]
  | a :: rest =>
    let r := listSplitOnChar c rest
    if a = c then [] :: r
    else
      match r with
      | [] => [[a]]
      | h :: t => (a :: h) :: t

/-- Rust splitn(2, c): the text before the first occurrence of c, and the
text after it when c occurs. -/
def splitFirst (c : Char) : List Char → (List Char × Option (List Char))
  | [] => ([], Option.none)
  | a :: rest =>
    if a = c then ([], some rest)
    else
      let r := splitFirst c rest
      (a :: r.1, r.2)

/-- Rust str::replace of the one-character pattern plus by a space. -/
def plusToSpace (s : String) : String :=
  String.mk (s.data.map (fun ch => if ch = '+' then ' ' else ch))

/-- ASCII case folding on a character code. -/
def foldCaseNat (n : Nat) : Nat :=
  if 65 ≤ n && n ≤ 90 then n + 32 else n

def charsIEq : List Char → List Char → Bool
  | [], [] => true
  | a :: as2, b :: bs => foldCaseNat a.toNat = foldCaseNat b.toNat && charsIEq as2 bs
  | _, _ => false

/-- Rust eq_ignore_ascii_case (also models a lowercased-header lookup). -/
def strIEq (s t : String) : Bool :=
  charsIEq s.data t.data

def listStartsWith : List Char → List Char → Bool
  | [], _ => true
  | _ :: _, [] => false
  | p :: ps, a :: rest => p = a && listStartsWith ps rest

def listContainsSub (pat : List Char) : List Char → Bool
  | [] => pat.isEmpty
  | a :: rest => listStartsWith pat (a :: rest) || listContainsSub pat rest

/-- Rust str::contains for a nonempty literal pattern. -/
def strContains (s pat : String) : Bool :=
  listContainsSub pat.data s.data

def isSpaceChar (c : Char) : Bool :=
  c = ' ' || c = '\t' || c = '\n' || c = '\r'

/-- Rust s.trim_start().starts_with(left angle bracket), the HTML sniff of
the string content-type rule (whitespace modelled as ASCII). -/
def htmlSniff (s : String) : Bool :=
  match s.data.dropWhile isSpaceChar with
  | '<' :: _ => true
  | _ => false

/-! ## request.rs: parse_query -/

/-- Key of one query pair: Rust pair.splitn(2, eq).next(). -/
def pairKey (pair : String) : String :=
  String.mk (splitFirst '=' pair.data).1

/-- Value of one query pair (text after the first equals sign, empty when
there is none): Rust parts.next().unwrap_or(""). -/
def pairVal (pair : String) : String :=
  match (splitFirst '=' pair.data).2 with
  | some v => String.mk v
  | Option.none => ""

/-- Loop body of request.rs parse_query: iterate the pairs in order, skip
empty pairs, insert key and decoded value (overwriting earlier keys). -/
def parseQueryGo : List String → List (String × String) → List (String × String)
  | [], m => m
  | pair :: rest, m =>
    if pair = "" then parseQueryGo rest m
    else parseQueryGo rest (ainsert m (pairKey pair) (plusToSpace (pairVal pair)))

/-- Embedding of request.rs parse_query: split on ampersands, skip empty
pairs, split each pair on the first equals sign, replace plus with space in
the value only, insert into a map (overwriting earlier occurrences). -/
def parse_query (qs : String) : List (String × String) :=
  parseQueryGo ((listSplitOnChar '&' qs.data).map (fun l => String.mk l)) []

/-- The pair-processing step of the spec-side query map: a value is kept iff
the pair key is the key looked up. -/
def specPair (k : String) (pair : String) : Option String :=
  if pairKey pair = k then some (plusToSpace (pairVal pair)) else none

/-- Spec-side characterisation of parse_query, written from the claim text:
pairs are split on ampersands, empty pairs are skipped, each pair is split
on the first equals sign (no equals sign gives the empty string), plus is
replaced by a space in values only, no percent-decoding happens, and on
duplicate keys the last occurrence wins. -/
def querySpecLookup (qs : String) (k : String) : Option String :=
  ((((listSplitOnChar '&' qs.data).map (fun l => String.mk l)).filter
    (fun p => p ≠ "")).filterMap (specPair k)).getLast?

/-- First-some choice, used to relate a fold to a last-occurrence lookup. -/
def oor {α : Type} (a b : Option α) : Option α :=
  match a with
  | some v => some v
  | none => b

/-! ## response.rs: Response -/

/-- Embedding of the response.rs Response pyclass. -/
structure Response where
  status_code : Nat
  headers : List (String × String)
  body : String
deriving Repr, DecidableEq

/-- Embedding of Response::new: headers default to the empty map, and the
content-type entry is only inserted when absent (HashMap entry or_insert). -/
def Response.new (body : String) (status_code : Nat)
    (headers : Option (List (String × String))) : Response :=
  let h := headers.getD []
  let h2 := if acontains h "content-type" then h
            else ainsert h "content-type" "application/json"
  ⟨status_code, h2, body⟩

/-- Embedding of Response::text: fresh header map with content-type
text/plain, status defaulting to 200. -/
def Response.text (t : String) (status_code : Option Nat) : Response :=
  ⟨status_code.getD 200, [("content-type", "text/plain")], t⟩

/-! ## router.rs: Router -/

/-- Embedding of the router.rs HTTP method enum. -/
inductive Method where
  | get
  | post
  | put
  | delete
  | patch
  | head
  | options
deriving DecidableEq, Repr

/-- Embedding of Method::from_str (uppercased comparison). -/
def Method.fromStr (s : String) : Option Method :=
  if strIEq s "GET" then some .get
  else if strIEq s "POST" then some .post
  else if strIEq s "PUT" then some .put
  else if strIEq s "DELETE" then some .delete
  else if strIEq s "PATCH" then some .patch
  else if strIEq s "HEAD" then some .head
  else if strIEq s "OPTIONS" then some .options
  else none

/-- Embedding of the router.rs Router: one matchit tree per method (a tree
modelled as its list of inserted (path, index) pairs) plus the running
handler counter. -/
structure Router where
  trees : List (Method × List (String × Nat))
  handlerCount : Nat
deriving Repr

def Router.empty : Router := ⟨[], 0⟩

/-- Model of matchit insert at the granularity the claims need: inserting a
path that is already present in the tree is a conflict and returns an
error (matchit InsertError), otherwise the route is recorded. -/
def treeInsert (t : List (String × Nat)) (path : String) (idx : Nat) :
    Except String (List (String × Nat)) :=
  if t.any (fun p => p.1 == path) then
    .error "Failed to insert route: conflict"
  else .ok (t ++ [(path, idx)])

def treesGet (trees : List (Method × List (String × Nat))) (m : Method) :
    List (String × Nat) :=
  ((trees.find? (fun p => p.1 == m)).map (fun p => p.2)).getD []

def treesSet (trees : List (Method × List (String × Nat))) (m : Method)
    (t : List (String × Nat)) : List (Method × List (String × Nat)) :=
  (m, t) :: trees.filter (fun p => !(p.1 == m))

/-- Embedding of Router::insert: the index is the current handler counter,
the counter is incremented before the tree insert is attempted (so it
advances even when the insert fails), and the tree insert can fail with a
conflict error. -/
def Router.insert (r : Router) (m : Method) (path : String) :
    Except String Nat × Router :=
  let index := r.handlerCount
  let count2 := r.handlerCount + 1
  match treeInsert (treesGet r.trees m) path index with
  | .error e => (.error e, ⟨r.trees, count2⟩)
  | .ok t2 => (.ok index, ⟨treesSet r.trees m t2, count2⟩)

/-- The literal reading of claim C8: from any starting router, registering
the same (method, path) route twice always yields two successful inserts
returning distinct indices. -/
def registerTwiceClaim : Prop :=
  ∀ (r : Router) (m : Method) (p : String),
    ∃ (i1 i2 : Nat) (r1 r2 : Router),
      r.insert m p = (.ok i1, r1) ∧ r1.insert m p = (.ok i2, r2) ∧ i1 ≠ i2

/-! ## Python values, errors, middleware (middleware.rs and server.rs) -/

/-- Model of the Python values the dispatch pipeline manipulates.  Opaque
instances (the wrapped Request, pydantic model instances, BackgroundTask,
UploadFile, response objects) are obj values: an attribute list models
getattr, and the stored "render" attribute models the result of calling the
render method. -/
inductive PyVal where
  | none
  | bool (b : Bool)
  | int (n : Int)
  | str (s : String)
  | list (xs : List PyVal)
  | tuple (xs : List PyVal)
  | dict (kvs : List (String × PyVal))
  | obj (cls : String) (attrs : List (String × PyVal))
deriving Repr

/-- Model of a raised Python exception as the dispatch code observes it:
whether it is an ignyx HTTPException instance, the extraction results of
its status_code / detail / headers attributes, and its display string
(PyErr::to_string, used by the generic 500 body). -/
structure PyErr where
  isHTTP : Bool
  status : Option Nat
  detail : Option String
  headers : Option (List (String × String))
  msg : String
deriving Repr, DecidableEq

/-- A registered middleware: each hook is present iff getattr on the Python
object finds the method (server.rs only calls hooks that exist). -/
structure Middleware where
  before : Option (PyVal → Except PyErr PyVal)
  after : Option (PyVal → PyVal → Except PyErr PyVal)
  onError : Option (PyVal → PyErr → Except PyErr PyVal)

/-- Observable events of one dispatch, used to state ordering claims.
Indices refer to the registration position of the middleware. -/
inductive Ev where
  | before (i : Nat)
  | handlerCall
  | onError (i : Nat)
  | after (i : Nat)
  | routerFind
deriving DecidableEq, Repr

/-- The inline before_request loop of server.rs (lines 832-838): every hook
that exists is called; an Ok return replaces the context unconditionally
(including a Python None return), a raising hook is swallowed and the chain
continues with the previous context. -/
def serverBeforeGo : List (Nat × Middleware) → PyVal → PyVal × List Ev
  | [], ctx => (ctx, [])
  | (i, mw) :: rest, ctx =>
    match mw.before with
    | Option.none => serverBeforeGo rest ctx
    | some f =>
      let ctx2 := match f ctx with
        | .ok v => v
        | .error _ => ctx
      let r := serverBeforeGo rest ctx2
      (r.1, Ev.before i :: r.2)

def serverBeforeChain (mws : List Middleware) (ctx : PyVal) : PyVal × List Ev :=
  serverBeforeGo mws.enum ctx

/-- Embedding of middleware.rs execute_before_middlewares: hooks run in
registration order, a hook error propagates (aborting the chain), and a
hook returning Python None leaves the context unchanged. -/
def execute_before_middlewares : List Middleware → PyVal → Except PyErr PyVal
  | [], ctx => .ok ctx
  | mw :: rest, ctx =>
    match mw.before with
    | Option.none => execute_before_middlewares rest ctx
    | some f =>
      match f ctx with
      | .error e => .error e
      | .ok PyVal.none => execute_before_middlewares rest ctx
      | .ok v => execute_before_middlewares rest v

/-- Embedding of middleware.rs execute_after_middlewares: hooks run in
reverse registration order, a hook error propagates, and a hook returning
Python None leaves the result unchanged. -/
def executeAfterGo : List Middleware → PyVal → PyVal → Except PyErr PyVal
  | [], _, res => .ok res
  | mw :: rest, req, res =>
    match mw.after with
    | Option.none => executeAfterGo rest req res
    | some f =>
      match f req res with
      | .error e => .error e
      | .ok PyVal.none => executeAfterGo rest req res
      | .ok v => executeAfterGo rest req v

def execute_after_middlewares (mws : List Middleware) (req res : PyVal) :
    Except PyErr PyVal :=
  executeAfterGo mws.reverse req res

/-- The inline after_request loop of server.rs (lines 1087-1095 and the
OPTIONS branch): iterates the middlewares in reverse registration order,
calls after_request only when the hook exists and a request object was
built, replaces the result unconditionally on an Ok return, and swallows
hook errors. -/
def serverAfterGo : List (Nat × Middleware) → Option PyVal → PyVal → PyVal × List Ev
  | [], _, res => (res, [])
  | (i, mw) :: rest, reqOpt, res =>
    match mw.after, reqOpt with
    | some f, some req =>
      let res2 := match f req res with
        | .ok v => v
        | .error _ => res
      let r := serverAfterGo rest reqOpt res2
      (r.1, Ev.after i :: r.2)
    | _, _ => serverAfterGo rest reqOpt res

def serverAfterChain (mws : List Middleware) (reqOpt : Option PyVal) (res : PyVal) :
    PyVal × List Ev :=
  serverAfterGo mws.enum.reverse reqOpt res

/-- The on_error walk of server.rs (lines 1065-1077) and handler.rs (lines
301-313): hooks run in forward registration order, only when the hook
exists and a request object was built; the first hook returning a non-None
value short-circuits; hook errors and None returns continue the walk. -/
def onErrorGo : List (Nat × Middleware) → Option PyVal → PyErr → Option PyVal × List Ev
  | [], _, _ => (Option.none, [])
  | (i, mw) :: rest, reqOpt, err =>
    match mw.onError, reqOpt with
    | some f, some req =>
      (match f req err with
       | .ok PyVal.none =>
         let r := onErrorGo rest reqOpt err
         (r.1, Ev.onError i :: r.2)
       | .ok v => (some v, [Ev.onError i])
       | .error _ =>
         let r := onErrorGo rest reqOpt err
         (r.1, Ev.onError i :: r.2))
    | _, _ => onErrorGo rest reqOpt err

def onErrorChain (mws : List Middleware) (reqOpt : Option PyVal) (err : PyErr) :
    Option PyVal × List Ev :=
  onErrorGo mws.enum reqOpt err

/-! ## Dispatch pipeline (server.rs call_python_handler and handler.rs) -/

/-- A parameter annotation: its __name__ (used to recognise BackgroundTask
and UploadFile) and the effect of calling the type with one string argument
(path and query parameter coercion). -/
structure Annotation where
  tyName : String
  coerce : String → Except PyErr PyVal

/-- Embedding of the HandlerSignature cache entry plus the handler callable
itself.  call models handler.call with keyword arguments (or call0 when no
kwargs dict was built); awaitRun models driving the returned coroutine to
completion on the thread-local event loop (run_until_complete); its result
is only consulted when isAsync is set.  pydanticBodyModel models
model_validate: an error carries the list from the errors() method of the
pydantic ValidationError (the schema collaborator guarantees a structured,
enumerable error list). -/
structure HandlerSig where
  paramNames : List String
  paramTypes : List (String × Annotation)
  isAsync : Bool
  hasDepends : Bool
  pydanticBodyModel : Option (PyVal → Except (List PyVal) PyVal)
  call : Option (List (String × PyVal)) → Except PyErr PyVal
  awaitRun : PyVal → Except PyErr PyVal

/-- The raw request body, modelled by its observable parse results:
emptiness, the serde_json parse outcome, and the String::from_utf8
outcome. -/
structure BodyData where
  isEmpty : Bool
  parseJson : Option PyVal
  asUtf8 : Option String

/-- The per-request data handed to call_python_handler. -/
structure ReqData where
  method : String
  path : String
  headers : List (String × String)
  pathParams : List (String × String)
  queryString : String
  body : BodyData

/-- The is_json check: a header whose name equals content-type ignoring
ASCII case and whose value contains application/json. -/
def contentTypeIsJson (hs : List (String × String)) : Bool :=
  match hs.find? (fun p => strIEq p.1 "content-type") with
  | some p => strContains p.2 "application/json"
  | Option.none => false

/-- Everything call_python_handler reads: the signature, the registered
middlewares, the request, the parsed multipart fields/files, the result of
resolve_dependencies(handler) when it returns a dict (none covers a missing
module, a raising resolver, and a non-dict result, all silently skipped by
the source), the ignyx.request.Request wrapper class (none when the import
or the wrapping call fails, in which case the raw object is used), and the
constructors for injected BackgroundTask / UploadFile instances. -/
structure DispatchCfg where
  sig : HandlerSig
  middlewares : List Middleware
  req : ReqData
  formFields : List (String × String)
  formFiles : List (String × (String × String × List Nat))
  depsResult : Option (List (String × PyVal))
  reqWrap : Option (PyVal → PyVal)
  bgTaskNew : PyVal
  uploadFileNew : String → String → List Nat → PyVal

def needsRequest (cfg : DispatchCfg) : Bool :=
  !cfg.middlewares.isEmpty || cfg.sig.paramNames.any (fun n => n == "request")

def hasQueryArgs (cfg : DispatchCfg) : Bool :=
  cfg.sig.paramNames.any (fun n =>
    n != "body" && n != "request" && !(acontains cfg.req.pathParams n))

/-- The query map is only parsed when a request object or query-bound
arguments are needed and the query string is nonempty. -/
def queryMap (cfg : DispatchCfg) : List (String × String) :=
  if (needsRequest cfg || hasQueryArgs cfg) && cfg.req.queryString != "" then
    parse_query cfg.req.queryString
  else []

def mapToDict (m : List (String × String)) : List (String × PyVal) :=
  m.map (fun p => (p.1, PyVal.str p.2))

/-- The Request pyclass instance built by Request::new.  The Rust object
stores the three maps serialised as JSON text in unspecified HashMap order;
no claim reads them, so they are kept structured here. -/
def requestObj (req : ReqData) (qm : List (String × String)) : PyVal :=
  PyVal.obj "Request"
    [("method", PyVal.str req.method), ("path", PyVal.str req.path),
     ("headers", PyVal.dict (mapToDict req.headers)),
     ("query_params", PyVal.dict (mapToDict qm)),
     ("path_params", PyVal.dict (mapToDict req.pathParams)),
     ("body", PyVal.str (req.body.asUtf8.getD ""))]

/-- Build the (wrapped) request context and run the inline before_request
loop of server.rs over it; nothing is built when no middleware is
registered and no parameter is named request. -/
def buildRequestCtx (cfg : DispatchCfg) : Option PyVal × List Ev :=
  if needsRequest cfg then
    let raw := requestObj cfg.req (queryMap cfg)
    let wrapped := match cfg.reqWrap with
      | some w => w raw
      | Option.none => raw
    let r := serverBeforeChain cfg.middlewares wrapped
    (some r.1, r.2)
  else (Option.none, [])

/-- PyDict set_item on the lazily created kwargs dict. -/
def setK (kw : Option (List (String × PyVal))) (k : String) (v : PyVal) :
    Option (List (String × PyVal)) :=
  some (ainsert (kw.getD []) k v)

/-- kwargs contains check (false when no dict was created yet). -/
def containsK (kw : Option (List (String × PyVal))) (k : String) : Bool :=
  acontains (kw.getD []) k

def getK (kw : Option (List (String × PyVal))) (k : String) : Option PyVal :=
  alookup (kw.getD []) k

/-- The value a path parameter binds to: the annotation called as a
one-argument constructor when the handler declares a type for that name,
else the raw text. -/
def pathBoundValue (sig : HandlerSig) (k v : String) : Except PyErr PyVal :=
  match alookup sig.paramTypes k with
  | some ann => ann.coerce v
  | Option.none => .ok (PyVal.str v)

/-- Binding stage 1 (path parameters): each pair is set unconditionally; a
coercion failure propagates as an error. -/
def stagePathGo (sig : HandlerSig) :
    List (String × String) → Option (List (String × PyVal)) →
    Except PyErr (Option (List (String × PyVal)))
  | [], kw => .ok kw
  | (k, v) :: rest, kw =>
    match pathBoundValue sig k v with
    | .error e => .error e
    | .ok pv => stagePathGo sig rest (setK kw k pv)

/-- Binding stage 2 (dependencies): when the handler uses Depends and the
resolver returned a dict, every returned pair is set with set_item, with no
already-bound check (so it overwrites an earlier binding of the same
name). -/
def stageDeps (cfg : DispatchCfg) (kw : Option (List (String × PyVal))) :
    Option (List (String × PyVal)) :=
  if cfg.sig.hasDepends then
    match cfg.depsResult with
    | some kvs => some (kvs.foldl (fun d q => ainsert d q.1 q.2) (kw.getD []))
    | Option.none => kw
  else kw

/-- Binding stage 3 (request object, injected types, form fields): the loop
over parameter names skips any name already bound; request binds the
context when one was built; an annotation named BackgroundTask injects a
fresh task (also captured for post-response scheduling); an annotation
named UploadFile injects a file object built from the matching multipart
file field; an unannotated name matching a multipart text field binds that
text. -/
def stageInjectGo (cfg : DispatchCfg) (reqOpt : Option PyVal) :
    List String → Option (List (String × PyVal)) → Option PyVal →
    Option (List (String × PyVal)) × Option PyVal
  | [], kw, task => (kw, task)
  | name :: rest, kw, task =>
    if containsK kw name then stageInjectGo cfg reqOpt rest kw task
    else if name == "request" then
      match reqOpt with
      | some req => stageInjectGo cfg reqOpt rest (setK kw name req) task
      | Option.none => stageInjectGo cfg reqOpt rest kw task
    else
      match alookup cfg.sig.paramTypes name with
      | some ann =>
        if ann.tyName == "BackgroundTask" then
          stageInjectGo cfg reqOpt rest (setK kw name cfg.bgTaskNew) (some cfg.bgTaskNew)
        else if ann.tyName == "UploadFile" then
          match alookup cfg.formFiles name with
          | some f => stageInjectGo cfg reqOpt rest
              (setK kw name (cfg.uploadFileNew f.1 f.2.1 f.2.2)) task
          | Option.none => stageInjectGo cfg reqOpt rest kw task
        else stageInjectGo cfg reqOpt rest kw task
      | Option.none =>
        match alookup cfg.formFields name with
        | some text => stageInjectGo cfg reqOpt rest (setK kw name (PyVal.str text)) task
        | Option.none => stageInjectGo cfg reqOpt rest kw task

/-- JSON string escaping shared by the json.dumps and serde_json models
(backslash and double quote; control characters are not modelled, no claim
exercises them). -/
def escChar (ch : Char) : List Char :=
  if ch = '\\' then ['\\', '\\']
  else if ch = '"' then ['\\', '"']
  else [ch]

def escJson (s : String) : String :=
  String.mk (s.data.foldr (fun ch acc => escChar ch ++ acc) [])

mutual
/-- Model of Python json.dumps with default separators.  obj values are
outside the collaborator's domain (CPython would raise TypeError); no claim
path passes one. -/
def jsonDumps : PyVal → String
  | PyVal.none => "null"
  | .bool b => if b then "true" else "false"
  | .int n => toString n
  | .str s => "\"" ++ escJson s ++ "\""
  | .list xs => "[" ++ jsonDumpsSeq xs ++ "]"
  | .tuple xs => "[" ++ jsonDumpsSeq xs ++ "]"
  | .dict kvs => "\x7b" ++ jsonDumpsFields kvs ++ "\x7d"
  | .obj _ _ => "null"

def jsonDumpsSeq : List PyVal → String
  | [] => ""
  | [x] => jsonDumps x
  | x :: y :: rest => jsonDumps x ++ ", " ++ jsonDumpsSeq (y :: rest)

def jsonDumpsFields : List (String × PyVal) → String
  | [] => ""
  | [kv] => "\"" ++ escJson kv.1 ++ "\": " ++ jsonDumps kv.2
  | kv :: kv2 :: rest =>
    "\"" ++ escJson kv.1 ++ "\": " ++ jsonDumps kv.2 ++ ", "
      ++ jsonDumpsFields (kv2 :: rest)
end

/-- The 422 body built by the source with format!: a brace, the literal
error field, the detail field holding the dumped error list, a brace. -/
def validationErrorBody (detail : String) : String :=
  "\x7b\"error\": \"Validation failed\", \"detail\": " ++ detail ++ "\x7d"

/-- Outcome of the body-injection stage: either binding proceeds or the
dispatch short-circuits with the 422 detail. -/
inductive BodyStage where
  | proceed (kw : Option (List (String × PyVal)))
  | invalid (detail : String)
deriving Repr

/-- Binding stage 4 (body): only when a parameter is named body and it is
still unbound.  A JSON content-type with a nonempty body attempts a
structured decode; with a cached pydantic model the decoded value is
validated, and a validation failure produces the 422 detail (json.dumps of
the errors() list); without a model the decoded value binds directly; a
parse failure binds Python None.  Otherwise the body binds as UTF-8 text,
or Python None when not valid text. -/
def stageBody (cfg : DispatchCfg) (kw : Option (List (String × PyVal))) : BodyStage :=
  let needs := cfg.sig.paramNames.any (fun n => n == "body") && !(containsK kw "body")
  if needs then
    if contentTypeIsJson cfg.req.headers && !cfg.req.body.isEmpty then
      match cfg.req.body.parseJson with
      | some pyObj =>
        match cfg.sig.pydanticBodyModel with
        | some validate =>
          match validate pyObj with
          | .ok inst => .proceed (setK kw "body" inst)
          | .error errs => .invalid (jsonDumps (PyVal.list errs))
        | Option.none => .proceed (setK kw "body" pyObj)
      | Option.none => .proceed (setK kw "body" PyVal.none)
    else
      match cfg.req.body.asUtf8 with
      | some text => .proceed (setK kw "body" (PyVal.str text))
      | Option.none => .proceed (setK kw "body" PyVal.none)
  else .proceed kw

/-- Binding stage 5 (query parameters): a pair binds only when its key is a
declared parameter name not already bound; coercion failures fall back to
the raw text. -/
def stageQueryGo (cfg : DispatchCfg) :
    List (String × String) → Option (List (String × PyVal)) →
    Option (List (String × PyVal))
  | [], kw => kw
  | (k, v) :: rest, kw =>
    if cfg.sig.paramNames.any (fun n => n == k) then
      let d := kw.getD []
      if acontains d k then stageQueryGo cfg rest (some d)
      else
        let pv := match alookup cfg.sig.paramTypes k with
          | some ann =>
            match ann.coerce v with
            | .ok c => c
            | .error _ => PyVal.str v
          | Option.none => PyVal.str v
        stageQueryGo cfg rest (some (ainsert d k pv))
    else stageQueryGo cfg rest kw

/-! ## Handler invocation, error classification, result normalisation -/

/-- Outcome of calling the handler (and, for coroutines, driving it):
either a value to normalise or an error to propagate. -/
inductive CoreOut where
  | value (v : PyVal)
  | fail (e : PyErr)

/-- Embedding of the handler call of server.rs: a successful synchronous
call yields the value; for an async handler the coroutine is driven on the
thread-local loop, and an awaiting error propagates directly (bypassing the
on_error walk, which only covers the initial call); a failing call walks
the on_error middlewares, and an unconsumed error propagates. -/
def coreCall (cfg : DispatchCfg) (reqOpt : Option PyVal)
    (kw : Option (List (String × PyVal))) : CoreOut × List Ev :=
  match cfg.sig.call kw with
  | .ok res =>
    if cfg.sig.isAsync then
      match cfg.sig.awaitRun res with
      | .ok v => (.value v, [Ev.handlerCall])
      | .error e => (.fail e, [Ev.handlerCall])
    else (.value res, [Ev.handlerCall])
  | .error err =>
    let oe := onErrorChain cfg.middlewares reqOpt err
    match oe.1 with
    | some v => (.value v, Ev.handlerCall :: oe.2)
    | Option.none => (.fail err, Ev.handlerCall :: oe.2)

/-- A TypeError raised by a failing extract, as a modelled PyErr. -/
def typeError : PyErr := ⟨false, Option.none, Option.none, Option.none, "TypeError"⟩

/-- An AttributeError raised by a failing getattr. -/
def attributeError : PyErr :=
  ⟨false, Option.none, Option.none, Option.none, "AttributeError"⟩

/-- extract::<u16> on a Python value (bool is an int subclass). -/
def extractU16 : PyVal → Except PyErr Nat
  | .int n => if 0 ≤ n && n < 65536 then .ok n.toNat else .error typeError
  | .bool b => .ok (if b then 1 else 0)
  | _ => .error typeError

/-- Collect a headers dict into string pairs, failing on a non-string value
(the tuple-headers extraction in call_python_handler uses the question-mark
operator on both extracts). -/
def extractStrPairs : List (String × PyVal) → Except PyErr (List (String × String))
  | [] => .ok []
  | (k, v) :: rest =>
    match v with
    | .str s =>
      (match extractStrPairs rest with
       | .ok r => .ok ((k, s) :: r)
       | .error e => .error e)
    | _ => .error typeError

def pyHasattr : PyVal → String → Bool
  | .obj _ attrs, n => acontains attrs n
  | _, _ => false

def pyGetattr : PyVal → String → Option PyVal
  | .obj _ attrs, n => alookup attrs n
  | _, _ => Option.none

/-- Python str() of a value as the fallback branches observe it; container
renderings are schematic (no claim reads them). -/
def pyStr : PyVal → String
  | PyVal.none => "None"
  | .bool b => if b then "True" else "False"
  | .int n => toString n
  | .str s => s
  | .list _ => "[...]"
  | .tuple _ => "(...)"
  | .dict _ => "\x7b...\x7d"
  | .obj cls _ => "<" ++ cls ++ " object>"

/-- The normalised dispatch result: body text, content type, status,
optional header overrides, optional captured background task. -/
structure DispatchRes where
  body : String
  contentType : String
  status : Nat
  headers : Option (List (String × String))
  task : Option PyVal
deriving Repr

/-- Tuple unpacking of the handler result: a 2- or 3-tuple yields body,
extracted status and (for a dict third element) extracted header
overrides; extraction failures propagate. -/
def tupleParts (result : PyVal) :
    Except PyErr (PyVal × Nat × Option (List (String × String))) :=
  match result with
  | .tuple xs =>
    if 2 ≤ xs.length then
      match xs[0]?, xs[1]? with
      | some a, some st =>
        (match extractU16 st with
         | .error e => .error e
         | .ok stn =>
           if 3 ≤ xs.length then
             match xs[2]? with
             | some (PyVal.dict kvs) =>
               (match extractStrPairs kvs with
                | .error e => .error e
                | .ok hs => .ok (a, stn, some hs))
             | _ => .ok (a, stn, Option.none)
           else .ok (a, stn, Option.none))
      | _, _ => .ok (result, 200, Option.none)
    else .ok (result, 200, Option.none)
  | _ => .ok (result, 200, Option.none)

/-- Result normalisation of call_python_handler: tuple unpacking, then the
BaseResponse branch (content_type attribute plus render method, not a dict
or str: rendered body, declared content type and status, response-level
headers merged over tuple-level ones when non-empty), then the content
rules (dict/list to JSON, strings HTML-sniffed, anything else through
str()). -/
def normalize (result : PyVal) (task : Option PyVal) : Except PyErr DispatchRes :=
  match tupleParts result with
  | .error e => .error e
  | .ok (actual, st, custom) =>
    if pyHasattr actual "content_type" && pyHasattr actual "render"
        && !(match actual with | .dict _ => true | _ => false)
        && !(match actual with | .str _ => true | _ => false) then
      match pyGetattr actual "content_type" with
      | some (.str ct) =>
        (match pyGetattr actual "status_code" with
         | some stv =>
           (match extractU16 stv with
            | .error e => .error e
            | .ok sc =>
              let rendered := (pyGetattr actual "render").getD PyVal.none
              let bodyStr := match rendered with
                | .str s => s
                | rv => pyStr rv
              let respHeaders := match pyGetattr actual "headers" with
                | some (.dict kvs) =>
                  let hmap := kvs.filterMap (fun p =>
                    match p.2 with | .str s => some (p.1, s) | _ => Option.none)
                  if hmap.isEmpty then custom
                  else
                    (match custom with
                     | some ex => some (hmap.foldl (fun acc q => ainsert acc q.1 q.2) ex)
                     | Option.none => some hmap)
                | _ => custom
              .ok ⟨bodyStr, ct, sc, respHeaders, task⟩)
         | Option.none => .error attributeError)
      | some _ => .error typeError
      | Option.none => .error attributeError
    else
      match actual with
      | .dict _ => .ok ⟨jsonDumps actual, "application/json", st, custom, task⟩
      | .list _ => .ok ⟨jsonDumps actual, "application/json", st, custom, task⟩
      | .str s =>
        let ct := if htmlSniff s then "text/html; charset=utf-8"
                  else "text/plain; charset=utf-8"
        .ok ⟨s, ct, st, custom, task⟩
      | other => .ok ⟨pyStr other, "text/plain; charset=utf-8", st, custom, task⟩

/-- The complete per-request dispatch of server.rs call_python_handler:
build and thread the request context through the before hooks, bind
arguments in the fixed stage order, short-circuit on a 422 validation
failure (before the handler, skipping the after hooks, returning no
background task), call the handler, classify errors, run the after hooks in
reverse order, and normalise the final value. -/
def serverCall (cfg : DispatchCfg) : Except PyErr DispatchRes × List Ev :=
  let b := buildRequestCtx cfg
  match stagePathGo cfg.sig cfg.req.pathParams Option.none with
  | .error e => (.error e, b.2)
  | .ok kw1 =>
    let kw2 := stageDeps cfg kw1
    let inj := stageInjectGo cfg b.1 cfg.sig.paramNames kw2 Option.none
    match stageBody cfg inj.1 with
    | .invalid detail =>
      (.ok ⟨validationErrorBody detail, "application/json", 422, Option.none, Option.none⟩,
       b.2)
    | .proceed kw4 =>
      let kw5 := stageQueryGo cfg (queryMap cfg) kw4
      let core := coreCall cfg b.1 kw5
      match core.1 with
      | .fail e => (.error e, b.2 ++ core.2)
      | .value v =>
        let aft := serverAfterChain cfg.middlewares b.1 v
        match normalize aft.1 inj.2 with
        | .error e => (.error e, b.2 ++ core.2 ++ aft.2)
        | .ok r => (.ok r, b.2 ++ core.2 ++ aft.2)

/-- The serde_json body of the HTTPException translation in handler.rs:
a single detail field (compact separators). -/
def serdeDetailBody (detail : String) : String :=
  "\x7b\"detail\":\"" ++ escJson detail ++ "\"\x7d"

/-- The response an HTTPException translates to in handler.rs: its status
(500 when extraction fails), detail (empty when the attribute is missing),
and header overrides (only when a non-empty string dict). -/
def httpExceptionResponse (e : PyErr) : DispatchRes :=
  ⟨serdeDetailBody (e.detail.getD ""), "application/json", e.status.getD 500,
   (match e.headers with
    | some l => if l.isEmpty then Option.none else some l
    | Option.none => Option.none),
   Option.none⟩

/-- Outcome of the handler.rs error branch. -/
inductive ErrBranchOut where
  | recovered (v : PyVal)
  | response (r : DispatchRes)
  | propagate (e : PyErr)

/-- Embedding of the error branch of handler.rs call_python_handler (lines
299-348): the on_error walk runs first; an unconsumed error that is an
ignyx HTTPException instance translates directly to a response; any other
unconsumed error propagates to the server level.  This pipeline is dead
code: handle_request calls the call_python_handler defined in server.rs
itself (server.rs line 686), whose error branch (lines 1063-1084) has no
HTTPException check and propagates every unconsumed error. -/
def handler_error_branch (mws : List Middleware) (reqOpt : Option PyVal)
    (err : PyErr) : ErrBranchOut × List Ev :=
  let oe := onErrorChain mws reqOpt err
  match oe.1 with
  | some v => (.recovered v, oe.2)
  | Option.none =>
    if err.isHTTP then (.response (httpExceptionResponse err), oe.2)
    else (.propagate err, oe.2)

/-! ## handle_request (server.rs): wire responses -/

structure HttpResponse where
  status : Nat
  headers : List (String × String)
  body : String
deriving Repr

def serverHeaderValue : String := "Ignyx/1.0.3"

/-- The generic 500 produced by handle_request when dispatch propagates an
error (serde_json::json! serialises its BTreeMap alphabetically, so detail
precedes error, with compact separators); the connection is kept alive (the
service function is infallible). -/
def http500Response (e : PyErr) : HttpResponse :=
  ⟨500, [("content-type", "application/json"), ("server", serverHeaderValue)],
   "\x7b\"detail\":\"" ++ escJson e.msg ++ "\",\"error\":\"Internal Server Error\"\x7d"⟩

/-- The 404 for an unmatched method or path. -/
def http404Response : HttpResponse :=
  ⟨404, [("content-type", "application/json"), ("server", serverHeaderValue)],
   "\x7b\"detail\":\"No route found\",\"error\":\"Not Found\"\x7d"⟩

/-- The response for a successful dispatch: declared content type, the
server header, then any custom header overrides appended. -/
def successResponse (r : DispatchRes) : HttpResponse :=
  ⟨r.status,
   [("content-type", r.contentType), ("server", serverHeaderValue)] ++ r.headers.getD [],
   r.body⟩

/-- The 101 Switching Protocols reply to a matched WebSocket upgrade:
upgrade, connection and accept headers only. -/
def ws101Response (accept : String) : HttpResponse :=
  ⟨101,
   [("upgrade", "websocket"), ("connection", "Upgrade"),
    ("sec-websocket-accept", accept)],
   ""⟩

/-- Header overrides taken from a 3-tuple result in the OPTIONS branch
(non-string dict values are skipped there, and an empty dict still counts
as overrides). -/
def optionsTupleHeaders (res : PyVal) : Option (List (String × String)) :=
  match res with
  | .tuple xs =>
    if 3 ≤ xs.length then
      match xs[2]? with
      | some (PyVal.dict kvs) =>
        some (kvs.filterMap (fun p =>
          match p.2 with | .str s => some (p.1, s) | _ => Option.none))
      | _ => Option.none
    else Option.none
  | _ => Option.none

/-- The request context the OPTIONS branch builds: the parsed query, an
empty path-parameter map and an empty body, wrapped when the Request class
is available. -/
def optionsCtx (req : ReqData) (reqWrap : Option (PyVal → PyVal)) : PyVal :=
  let raw := requestObj ⟨req.method, req.path, req.headers, [], req.queryString,
    ⟨true, Option.none, some ""⟩⟩ (parse_query req.queryString)
  match reqWrap with
  | some w => w raw
  | Option.none => raw

/-- The initial result tuple of the OPTIONS branch: empty body, status 200,
empty header dict. -/
def optionsStart : PyVal := PyVal.tuple [PyVal.str "", PyVal.int 200, PyVal.dict []]

/-- The after_request chain the OPTIONS branch runs (reverse registration
order) and its final result. -/
def optionsFinal (mws : List Middleware) (req : ReqData)
    (reqWrap : Option (PyVal → PyVal)) : PyVal × List Ev :=
  serverAfterGo mws.enum.reverse (some (optionsCtx req reqWrap)) optionsStart

/-- The OPTIONS branch of handle_request: run only the after_request hooks
in reverse registration order over the initial tuple of empty body, status
200 and empty header dict, and answer 200 with content-type text/plain, the
server header and any tuple-provided header overrides; the response body is
always empty. -/
def handleOptions (mws : List Middleware) (req : ReqData)
    (reqWrap : Option (PyVal → PyVal)) : HttpResponse × List Ev :=
  let aft := optionsFinal mws req reqWrap
  (⟨200,
    [("content-type", "text/plain"), ("server", serverHeaderValue)]
      ++ (optionsTupleHeaders aft.1).getD [],
    ""⟩,
   aft.2)

/-- Case-insensitive upgrade: websocket header test (hyper header lookup is
case-insensitive; the value comparison uses eq_ignore_ascii_case). -/
def isWsUpgradeReq (hs : List (String × String)) : Bool :=
  match hs.find? (fun p => strIEq p.1 "upgrade") with
  | some p => strIEq p.2 "websocket"
  | Option.none => false

/-- Everything handle_request reads: the WebSocket route paths and the
derived accept value (the RFC 6455 key derivation is opaque here), the
server state used by the OPTIONS branch, the request, and the outcome of
Router::find plus the signature-cache lookup, bundled as the dispatch
configuration for the matched handler (none models no route match). -/
structure ServerCfg where
  wsRoutes : List String
  wsAccept : String
  middlewares : List Middleware
  reqWrap : Option (PyVal → PyVal)
  req : ReqData
  routeMatch : Option DispatchCfg

/-- Embedding of handle_request: a WebSocket upgrade matching a registered
path answers 101 at once; otherwise OPTIONS takes its dedicated branch
before any router interaction; otherwise a parsed method consults the
router (the routerFind event), dispatching on a match (500 on a propagated
error) and answering the JSON 404 otherwise; an unparseable method also
yields the 404 without a router lookup. -/
def handleRequest (cfg : ServerCfg) : HttpResponse × List Ev :=
  if isWsUpgradeReq cfg.req.headers && cfg.wsRoutes.any (fun p => p == cfg.req.path) then
    (ws101Response cfg.wsAccept, [])
  else if cfg.req.method == "OPTIONS" then
    handleOptions cfg.middlewares cfg.req cfg.reqWrap
  else
    match Method.fromStr cfg.req.method with
    | some _ =>
      (match cfg.routeMatch with
       | some dcfg =>
         let d := serverCall dcfg
         (match d.1 with
          | .ok r => (successResponse r, Ev.routerFind :: d.2)
          | .error e => (http500Response e, Ev.routerFind :: d.2))
       | Option.none => (http404Response, [Ev.routerFind]))
    | Option.none => (http404Response, [])

/-! ## Traces and claim statements -/

/-- The before_request events the dispatch emits: one per middleware that
has the hook, in registration order. -/
def beforeTraceOf (mws : List Middleware) : List Ev :=
  (mws.enum.filter (fun p => p.2.before.isSome)).map (fun p => Ev.before p.1)

/-- The after_request events in forward registration order (the dispatch
emits their reversal). -/
def afterTraceFwd (mws : List Middleware) : List Ev :=
  (mws.enum.filter (fun p => p.2.after.isSome)).map (fun p => Ev.after p.1)

def isBeforeEv : Ev → Bool
  | Ev.before _ => true
  | _ => false

/-- Does the dependency-resolution stage bind this name? -/
def depsBinds (cfg : DispatchCfg) (k : String) : Bool :=
  cfg.sig.hasDepends &&
    (match cfg.depsResult with
     | some kvs => kvs.any (fun q => q.1 == k)
     | Option.none => false)

/-- The literal reading of claim C1 for the contested pair of stages: when
the path-parameter map and the dependency-resolver result both contain a
key, the kwargs finally passed to the handler hold the
path-parameter-derived value for that key. -/
def bindPrecedenceClaim : Prop :=
  ∀ (cfg : DispatchCfg) (key v : String)
    (kw1 kw4 : Option (List (String × PyVal))) (pv : PyVal),
    (cfg.req.pathParams.map Prod.fst).Nodup →
    (key, v) ∈ cfg.req.pathParams →
    stagePathGo cfg.sig cfg.req.pathParams Option.none = .ok kw1 →
    stageBody cfg (stageInjectGo cfg (buildRequestCtx cfg).1 cfg.sig.paramNames
        (stageDeps cfg kw1) Option.none).1 = BodyStage.proceed kw4 →
    pathBoundValue cfg.sig key v = .ok pv →
    getK (stageQueryGo cfg (queryMap cfg) kw4) key = some pv

/-- The literal reading of claim C5's first arm at request level: whenever
a matched handler failure is not consumed by on_error middleware and
propagates out of dispatch, and the error is a recognised HTTP exception,
the served response carries the exception's status code. -/
def httpExceptionTranslatedClaim : Prop :=
  ∀ (cfg : ServerCfg) (dcfg : DispatchCfg) (err : PyErr),
    (isWsUpgradeReq cfg.req.headers
      && cfg.wsRoutes.any (fun p => p == cfg.req.path)) = false →
    (cfg.req.method == "OPTIONS") = false →
    (Method.fromStr cfg.req.method).isSome = true →
    cfg.routeMatch = some dcfg →
    (serverCall dcfg).1 = Except.error err →
    err.isHTTP = true →
    (handleRequest cfg).1.status = err.status.getD 500

/-- The literal reading of claim C7: every response handle_request produces
carries a server header. -/
def serverHeaderClaim : Prop :=
  ∀ cfg : ServerCfg, ∃ v, alookup (handleRequest cfg).1.headers "server" = some v

/-! ## Concrete instances for witnesses and counterexamples -/

/-- A generic (non-HTTPException) handler error. -/
def genericError : PyErr :=
  ⟨false, Option.none, Option.none, Option.none, "boom"⟩

/-- An empty request body (valid UTF-8, no JSON). -/
def emptyBody : BodyData := ⟨true, Option.none, some ""⟩

/-- Decimal digit parse over character codes (kernel computable). -/
def digitsToNat : List Char → Option Nat
  | [] => Option.none
  | l => l.foldl (fun acc ch =>
      match acc with
      | some n =>
        if 48 ≤ ch.toNat && ch.toNat ≤ 57 then some (n * 10 + (ch.toNat - 48))
        else Option.none
      | Option.none => Option.none) (some 0)

/-- An int-like annotation for coercion demonstrations. -/
def intAnn : Annotation :=
  ⟨"int", fun s =>
    match digitsToNat s.data with
    | some n => .ok (PyVal.int (Int.ofNat n))
    | Option.none => .error typeError⟩

/-- C1 counterexample configuration: path parameter x bound to "1", a
dependency resolver also returning x (as "2"), no middleware, no query. -/
def c1cfg : DispatchCfg :=
  ⟨⟨["x"], [], false, true, Option.none, fun _ => .ok PyVal.none, fun v => .ok v⟩,
   [], ⟨"GET", "/t/1", [], [("x", "1")], "", emptyBody⟩,
   [], [], some [("x", PyVal.str "2")], Option.none, PyVal.none,
   fun _ _ _ => PyVal.none⟩

/-- C1 amended-witness configuration: typed path parameter x, a second
declared name q fed by the query string, which also tries (and fails) to
rebind x. -/
def c1okCfg : DispatchCfg :=
  ⟨⟨["x", "q"], [("x", intAnn)], false, false, Option.none,
    fun _ => .ok PyVal.none, fun v => .ok v⟩,
   [], ⟨"GET", "/t/1", [], [("x", "1")], "x=9&q=hello", emptyBody⟩,
   [], [], Option.none, Option.none, PyVal.none,
   fun _ _ _ => PyVal.none⟩

/-- C2 witness: the validator rejecting the decoded body with a pydantic
style error list. -/
def c2errs : List PyVal :=
  [PyVal.dict [("type", PyVal.str "int_parsing"), ("loc", PyVal.list [PyVal.str "age"])]]

def c2validate : PyVal → Except (List PyVal) PyVal := fun _ => .error c2errs

/-- C2 witness configuration: handler declaring body with a cached pydantic
model, JSON content type, body decoding to a dict with a bad age field. -/
def c2cfg : DispatchCfg :=
  ⟨⟨["body"], [], false, false, some c2validate, fun _ => .ok PyVal.none, fun v => .ok v⟩,
   [], ⟨"POST", "/users", [("content-type", "application/json")], [], "",
     ⟨false, some (PyVal.dict [("age", PyVal.str "not-a-number")]),
      some "\x7b\"age\": \"not-a-number\"\x7d"⟩⟩,
   [], [], Option.none, Option.none, PyVal.none,
   fun _ _ _ => PyVal.none⟩

/-- Middleware A for the ordering witness: full hook set, on_error
recovering with a replacement result. -/
def mwWitA : Middleware :=
  ⟨some (fun c => .ok c), some (fun _ r => .ok r),
   some (fun _ _ => .ok (PyVal.str "recovered"))⟩

/-- Middleware B for the ordering witness: full hook set, on_error passing
(returns Python None). -/
def mwWitB : Middleware :=
  ⟨some (fun c => .ok c), some (fun _ r => .ok r), some (fun _ _ => .ok PyVal.none)⟩

/-- C3 witness configuration: middlewares A then B, a handler that raises a
generic error which middleware A recovers from. -/
def c3cfg : DispatchCfg :=
  ⟨⟨[], [], false, false, Option.none, fun _ => .error genericError, fun v => .ok v⟩,
   [mwWitA, mwWitB], ⟨"GET", "/x", [], [], "", emptyBody⟩,
   [], [], Option.none, Option.none, PyVal.none,
   fun _ _ _ => PyVal.none⟩

/-- C4 exhibits: a before hook returning Python None, one raising, one
replacing the context with a marker. -/
def noneHook : Middleware := ⟨some (fun _ => .ok PyVal.none), Option.none, Option.none⟩

def raiseHook : Middleware :=
  ⟨some (fun _ => .error genericError), Option.none, Option.none⟩

def markHook : Middleware :=
  ⟨some (fun _ => .ok (PyVal.str "marked")), Option.none, Option.none⟩

def c4ctx : PyVal := PyVal.str "ctx"

/-- C5 witness: a recognised HTTP exception carrying status, detail and a
header override. -/
def httpErr404 : PyErr :=
  ⟨true, some 404, some "missing", some [("x-reason", "gone")], "HTTPException"⟩

/-- C5 dispatch configuration whose handler raises the recognised HTTP
exception with no middleware to consume it. -/
def c5dcfg : DispatchCfg :=
  ⟨⟨[], [], false, false, Option.none, fun _ => .error httpErr404, fun v => .ok v⟩,
   [], ⟨"GET", "/boom", [], [], "", emptyBody⟩,
   [], [], Option.none, Option.none, PyVal.none,
   fun _ _ _ => PyVal.none⟩

/-- C5 server configuration routing to that handler. -/
def c5scfg : ServerCfg :=
  ⟨[], "", [], Option.none, ⟨"GET", "/boom", [], [], "", emptyBody⟩, some c5dcfg⟩

/-- C6 witness: an after hook replacing the result with a 3-tuple carrying
a header override. -/
def c6mw : Middleware :=
  ⟨Option.none,
   some (fun _ _ => .ok (PyVal.tuple
     [PyVal.str "ignored", PyVal.int 204, PyVal.dict [("x-custom", PyVal.str "1")]])),
   Option.none⟩

def c6cfg : ServerCfg :=
  ⟨[], "", [c6mw], Option.none, ⟨"OPTIONS", "/any", [], [], "", emptyBody⟩, Option.none⟩

/-- C7 counterexample: a WebSocket upgrade request matching a registered
WebSocket route. -/
def c7cfg : ServerCfg :=
  ⟨["/ws"], "dGhlIHNhbXBsZSBub25jZQ==", [], Option.none,
   ⟨"GET", "/ws", [("upgrade", "websocket")], [], "", emptyBody⟩, Option.none⟩

/-- C7 amended witness: a plain request with no matching route (404 path). -/
def c7okCfg : ServerCfg :=
  ⟨[], "", [], Option.none, ⟨"GET", "/nowhere", [], [], "", emptyBody⟩, Option.none⟩

/-! ## Helper lemmas -/

theorem alookup_ainsert_self {α : Type} (m : List (String × α)) (k : String) (v : α) :
    alookup (ainsert m k v) k = some v := by
  simp [alookup, ainsert]

theorem find?_filter_other {α : Type} (m : List (String × α)) (k k2 : String)
    (h : k2 ≠ k) :
    List.find? (fun p => p.1 == k) (m.filter (fun p => !(p.1 == k2)))
      = List.find? (fun p => p.1 == k) m := by
  induction m with
  | nil => rfl
  | cons p rest ih =>
    by_cases hp : p.1 = k2
    · rw [List.filter_cons_of_neg (by simp [hp]),
        List.find?_cons_of_neg _ (by simp [hp, h]), ih]
    · rw [List.filter_cons_of_pos (by simp [hp])]
      by_cases hq : p.1 = k
      · rw [List.find?_cons_of_pos _ (by simp [hq]), List.find?_cons_of_pos _ (by simp [hq])]
      · rw [List.find?_cons_of_neg _ (by simp [hq]), List.find?_cons_of_neg _ (by simp [hq]), ih]

theorem alookup_ainsert_ne {α : Type} (m : List (String × α)) (k k2 : String) (v : α)
    (h : k2 ≠ k) : alookup (ainsert m k2 v) k = alookup m k := by
  unfold alookup ainsert
  rw [List.find?_cons_of_neg _ (by simp [h]), find?_filter_other m k k2 h]

theorem acontains_iff_alookup {α : Type} (m : List (String × α)) (k : String) :
    acontains m k = true ↔ (alookup m k).isSome := by
  induction m with
  | nil => simp [acontains, alookup]
  | cons p rest ih =>
    by_cases hp : p.1 = k
    · simp [acontains, alookup, List.find?, hp]
    · have h1 : (p.1 == k) = false := by simp [hp]
      simp [acontains, alookup, List.find?, h1]

theorem oor_some {α : Type} (v : α) (b : Option α) : oor (some v) b = some v := rfl

theorem oor_none {α : Type} (b : Option α) : oor none b = b := rfl

theorem getLast?_cons_oor {α : Type} :
    ∀ (xs : List α) (a : α), (a :: xs).getLast? = oor xs.getLast? (some a)
  | [], _ => rfl
  | b :: t, a => by
    rw [List.getLast?_cons_cons, getLast?_cons_oor t b]
    cases t.getLast? <;> rfl

theorem parseQueryGo_lookup (l : List String) (m : List (String × String)) (k : String) :
    alookup (parseQueryGo l m) k
    = oor ((l.filter (fun p => p ≠ "")).filterMap (specPair k)).getLast? (alookup m k) := by
  induction l generalizing m with
  | nil => rfl
  | cons p rest ih =>
    by_cases hp : p = ""
    · rw [parseQueryGo, if_pos hp, List.filter_cons_of_neg (by simp [hp]), ih]
    · rw [parseQueryGo, if_neg hp, List.filter_cons_of_pos (by simp [hp])]
      by_cases hk : pairKey p = k
      · have hs : specPair k p = some (plusToSpace (pairVal p)) := by
          simp [specPair, hk]
        rw [List.filterMap_cons_some hs, getLast?_cons_oor, ih]
        subst hk
        rw [alookup_ainsert_self]
        cases ((rest.filter (fun p => p ≠ "")).filterMap (specPair (pairKey p))).getLast? <;> rfl
      · rw [List.filterMap_cons_none (by simp [specPair, hk]), ih,
          alookup_ainsert_ne _ _ _ _ hk]

theorem treesGet_treesSet (ts : List (Method × List (String × Nat))) (m : Method)
    (t : List (String × Nat)) : treesGet (treesSet ts m t) m = t := by
  simp [treesGet, treesSet, List.find?]

theorem serverBeforeGo_trace (l : List (Nat × Middleware)) (ctx : PyVal) :
    (serverBeforeGo l ctx).2
      = (l.filter (fun p => p.2.before.isSome)).map (fun p => Ev.before p.1) := by
  induction l generalizing ctx with
  | nil => rfl
  | cons p rest ih =>
    obtain ⟨i, mw⟩ := p
    cases hb : mw.before with
    | none =>
      rw [List.filter_cons_of_neg (by simp [hb])]
      simp only [serverBeforeGo, hb]
      exact ih ctx
    | some f =>
      rw [List.filter_cons_of_pos (by simp [hb])]
      simp only [serverBeforeGo, hb, List.map_cons]
      rw [ih]

theorem serverAfterGo_trace_some (l : List (Nat × Middleware)) (req : PyVal) :
    ∀ res : PyVal, (serverAfterGo l (some req) res).2
      = (l.filter (fun p => p.2.after.isSome)).map (fun p => Ev.after p.1) := by
  induction l with
  | nil => intro res; rfl
  | cons p rest ih =>
    intro res
    obtain ⟨i, mw⟩ := p
    cases ha : mw.after with
    | none =>
      rw [List.filter_cons_of_neg (by simp [ha])]
      simp only [serverAfterGo, ha]
      exact ih _
    | some f =>
      rw [List.filter_cons_of_pos (by simp [ha])]
      simp only [serverAfterGo, ha, List.map_cons]
      rw [ih]

theorem serverAfterGo_trace_none (l : List (Nat × Middleware)) :
    ∀ res : PyVal, (serverAfterGo l Option.none res).2 = [] := by
  induction l with
  | nil => intro res; rfl
  | cons p rest ih =>
    intro res
    obtain ⟨i, mw⟩ := p
    cases ha : mw.after <;> simp only [serverAfterGo, ha] <;> exact ih _

theorem needsRequest_false_mws (cfg : DispatchCfg) (hn : needsRequest cfg = false) :
    cfg.middlewares = [] := by
  have h2 := hn
  simp only [needsRequest, Bool.or_eq_false_iff, Bool.not_eq_false'] at h2
  exact List.isEmpty_iff.mp h2.1

theorem buildRequestCtx_trace (cfg : DispatchCfg) :
    (buildRequestCtx cfg).2 = beforeTraceOf cfg.middlewares := by
  cases hn : needsRequest cfg
  · rw [buildRequestCtx, hn, beforeTraceOf, needsRequest_false_mws cfg hn]
    rfl
  · rw [buildRequestCtx, hn]
    simp only [if_true]
    rw [serverBeforeChain, serverBeforeGo_trace, beforeTraceOf]

theorem serverAfterChain_trace (cfg : DispatchCfg) (res : PyVal) :
    (serverAfterChain cfg.middlewares (buildRequestCtx cfg).1 res).2
      = (afterTraceFwd cfg.middlewares).reverse := by
  cases hn : needsRequest cfg
  · have hb1 : (buildRequestCtx cfg).1 = Option.none := by
      rw [buildRequestCtx, hn]
      rfl
    rw [serverAfterChain, hb1, serverAfterGo_trace_none, afterTraceFwd,
      needsRequest_false_mws cfg hn]
    rfl
  · have hb1 : (buildRequestCtx cfg).1
        = some (serverBeforeChain cfg.middlewares
            (match cfg.reqWrap with
             | some w => w (requestObj cfg.req (queryMap cfg))
             | Option.none => requestObj cfg.req (queryMap cfg))).1 := by
      rw [buildRequestCtx, hn]
      rfl
    rw [serverAfterChain, hb1, serverAfterGo_trace_some, afterTraceFwd,
      List.filter_reverse, List.map_reverse]

theorem beforeTraceOf_only_before (mws : List Middleware) :
    (beforeTraceOf mws).all isBeforeEv = true := by
  rw [beforeTraceOf]
  induction mws.enum.filter (fun p => p.2.before.isSome) with
  | nil => rfl
  | cons p rest ih => simp [isBeforeEv, ih]

theorem alookup_ct_server (a : String) (rest : List (String × String)) :
    alookup ((("content-type", a)) :: ("server", serverHeaderValue) :: rest) "server"
      = some serverHeaderValue := by
  rw [alookup, List.find?_cons_of_neg _ (by simp), List.find?_cons_of_pos _ (by simp)]
  rfl

theorem handleRequest_routed (cfg : ServerCfg) (m : Method) (dcfg : DispatchCfg)
    (h : (isWsUpgradeReq cfg.req.headers
        && cfg.wsRoutes.any (fun p => p == cfg.req.path)) = false)
    (hm : (cfg.req.method == "OPTIONS") = false)
    (hf : Method.fromStr cfg.req.method = some m)
    (hr : cfg.routeMatch = some dcfg) :
    handleRequest cfg
      = (match (serverCall dcfg).1 with
         | .ok r => (successResponse r, Ev.routerFind :: (serverCall dcfg).2)
         | .error e => (http500Response e, Ev.routerFind :: (serverCall dcfg).2)) := by
  rw [handleRequest, h, if_neg Bool.false_ne_true, hm, if_neg Bool.false_ne_true, hf, hr]

theorem bool_eq_false {b : Bool} (h : ¬ b = true) : b = false := by
  cases b
  · rfl
  · exact absurd rfl h

theorem getK_setK_self (kw : Option (List (String × PyVal))) (k : String) (v : PyVal) :
    getK (setK kw k v) k = some v := by
  simp only [getK, setK, Option.getD_some]
  exact alookup_ainsert_self _ _ _

theorem getK_setK_ne (kw : Option (List (String × PyVal))) (k2 k : String) (v : PyVal)
    (h : k2 ≠ k) : getK (setK kw k2 v) k = getK kw k := by
  simp only [getK, setK, Option.getD_some]
  exact alookup_ainsert_ne _ _ _ _ h

theorem containsK_true_of_getK (kw : Option (List (String × PyVal))) (k : String)
    (pv : PyVal) (h : getK kw k = some pv) : containsK kw k = true := by
  rw [containsK, acontains_iff_alookup]
  rw [getK] at h
  rw [h]
  rfl

theorem stagePathGo_preserve (sig : HandlerSig) (key : String) :
    ∀ (pp : List (String × String)) (acc kw : Option (List (String × PyVal))),
      key ∉ pp.map Prod.fst → stagePathGo sig pp acc = .ok kw →
      getK kw key = getK acc key := by
  intro pp
  induction pp with
  | nil =>
    intro acc kw _ h
    cases h
    rfl
  | cons p rest ih =>
    intro acc kw hnin h
    obtain ⟨k0, v0⟩ := p
    cases hpb : pathBoundValue sig k0 v0 with
    | error e =>
      simp only [stagePathGo, hpb] at h
      exact Except.noConfusion h
    | ok pv0 =>
      simp only [stagePathGo, hpb] at h
      have hk0 : k0 ≠ key := by
        intro hq
        exact hnin (by simp [hq])
      rw [ih (setK acc k0 pv0) kw (fun hm => hnin (by simp [List.mem_cons]; exact Or.inr (by simpa using hm))) h]
      exact getK_setK_ne _ _ _ _ hk0

theorem stagePathGo_lookup (sig : HandlerSig) (key v : String) (pv : PyVal) :
    ∀ (pp : List (String × String)) (acc kw : Option (List (String × PyVal))),
      (pp.map Prod.fst).Nodup → (key, v) ∈ pp →
      pathBoundValue sig key v = .ok pv →
      stagePathGo sig pp acc = .ok kw →
      getK kw key = some pv := by
  intro pp
  induction pp with
  | nil =>
    intro acc kw _ hmem
    exact absurd hmem (List.not_mem_nil _)
  | cons p rest ih =>
    intro acc kw hnd hmem hpv h
    obtain ⟨k0, v0⟩ := p
    have hnd2 : (k0 :: rest.map Prod.fst).Nodup := by simpa using hnd
    rcases List.mem_cons.mp hmem with heq | hmem2
    · injection heq with hk hv
      subst hk
      subst hv
      simp only [stagePathGo, hpv] at h
      rw [stagePathGo_preserve sig key rest _ _ (List.nodup_cons.mp hnd2).1 h]
      exact getK_setK_self _ _ _
    · cases hpb : pathBoundValue sig k0 v0 with
      | error e =>
        simp only [stagePathGo, hpb] at h
        exact Except.noConfusion h
      | ok pv0 =>
        simp only [stagePathGo, hpb] at h
        exact ih _ _ (List.nodup_cons.mp hnd2).2 hmem2 hpv h

theorem foldl_ainsert_notin (key : String) :
    ∀ (kvs : List (String × PyVal)) (d : List (String × PyVal)),
      kvs.any (fun q => q.1 == key) = false →
      alookup (kvs.foldl (fun d q => ainsert d q.1 q.2) d) key = alookup d key := by
  intro kvs
  induction kvs with
  | nil => intro d _; rfl
  | cons q rest ih =>
    intro d hany
    have h1 : ((q.1 == key) = false) ∧ rest.any (fun q => q.1 == key) = false := by
      simpa [List.any_cons, Bool.or_eq_false_iff] using hany
    rw [List.foldl_cons, ih _ h1.2,
      alookup_ainsert_ne _ _ _ _ (beq_eq_false_iff_ne.mp h1.1)]

theorem stageDeps_preserve (cfg : DispatchCfg) (kw : Option (List (String × PyVal)))
    (key : String) (h : depsBinds cfg key = false) :
    getK (stageDeps cfg kw) key = getK kw key := by
  rw [stageDeps]
  cases hd : cfg.sig.hasDepends with
  | false => rw [if_neg Bool.false_ne_true]
  | true =>
    rw [if_pos rfl]
    cases hr : cfg.depsResult with
    | none => rfl
    | some kvs =>
      have hany : kvs.any (fun q => q.1 == key) = false := by
        have h2 := h
        simp only [depsBinds, hd, hr, Bool.true_and] at h2
        exact h2
      simp only [getK, Option.getD_some]
      exact foldl_ainsert_notin key kvs _ hany

theorem stageInjectGo_preserve (cfg : DispatchCfg) (reqOpt : Option PyVal)
    (key : String) (pv : PyVal) :
    ∀ (names : List String) (kw : Option (List (String × PyVal))) (task : Option PyVal),
      getK kw key = some pv →
      getK (stageInjectGo cfg reqOpt names kw task).1 key = some pv := by
  intro names
  induction names with
  | nil => intro kw task h; exact h
  | cons name rest ih =>
    intro kw task h
    by_cases hc : containsK kw name = true
    · simp only [stageInjectGo, hc, if_true]
      exact ih _ _ h
    · have hne : name ≠ key := by
        intro he
        subst he
        exact hc (containsK_true_of_getK _ _ _ h)
      simp only [stageInjectGo, bool_eq_false hc, Bool.false_eq_true, if_false]
      split
      · split
        · exact ih _ _ (by rw [getK_setK_ne _ _ _ _ hne]; exact h)
        · exact ih _ _ h
      · split
        · split
          · exact ih _ _ (by rw [getK_setK_ne _ _ _ _ hne]; exact h)
          · split
            · split
              · exact ih _ _ (by rw [getK_setK_ne _ _ _ _ hne]; exact h)
              · exact ih _ _ h
            · exact ih _ _ h
        · split
          · exact ih _ _ (by rw [getK_setK_ne _ _ _ _ hne]; exact h)
          · exact ih _ _ h

theorem stageBody_preserve (cfg : DispatchCfg)
    (kw kw4 : Option (List (String × PyVal))) (key : String) (pv : PyVal)
    (h : getK kw key = some pv)
    (h2 : stageBody cfg kw = BodyStage.proceed kw4) :
    getK kw4 key = some pv := by
  simp only [stageBody] at h2
  by_cases hn : (cfg.sig.paramNames.any (fun n => n == "body") && !(containsK kw "body")) = true
  · rw [if_pos hn] at h2
    have hkb : ("body" : String) ≠ key := by
      intro he
      subst he
      rw [containsK_true_of_getK _ _ _ h] at hn
      simp at hn
    repeat' split at h2
    all_goals cases h2
    all_goals rw [getK_setK_ne _ _ _ _ hkb]
    all_goals exact h
  · rw [if_neg hn] at h2
    cases h2
    exact h

theorem stageQueryGo_preserve (cfg : DispatchCfg) (key : String) (pv : PyVal) :
    ∀ (qm : List (String × String)) (kw : Option (List (String × PyVal))),
      getK kw key = some pv →
      getK (stageQueryGo cfg qm kw) key = some pv := by
  intro qm
  induction qm with
  | nil => intro kw h; exact h
  | cons q rest ih =>
    intro kw h
    obtain ⟨k, v⟩ := q
    by_cases hp : (cfg.sig.paramNames.any (fun n => n == k)) = true
    · simp only [stageQueryGo, hp, if_true]
      by_cases hc : acontains (kw.getD []) k = true
      · simp only [hc, if_true]
        exact ih _ h
      · simp only [bool_eq_false hc, Bool.false_eq_true, if_false]
        have hkne : k ≠ key := by
          intro he
          subst he
          exact hc (containsK_true_of_getK _ _ _ h)
        exact ih _ ((alookup_ainsert_ne (kw.getD []) key k _ hkne).trans h)
    · simp only [stageQueryGo, bool_eq_false hp, Bool.false_eq_true, if_false]
      exact ih _ h

/-! ## Theorems settling claims C8, C9, C10 -/

/-- C8 (counterexample): registering the same (method, path) route twice
does not produce two distinct indices; on the concrete input of inserting
"/hello" for GET twice starting from the empty router, the second insert
fails with a conflict error instead of succeeding. -/
theorem duplicate_route_claim_false : ¬ registerTwiceClaim := by
  intro h
  obtain ⟨i1, i2, r1, r2, h1, h2, hne⟩ := h Router.empty .get "/hello"
  have e1 : Router.empty.insert .get "/hello"
      = (.ok 0, ⟨[(Method.get, [("/hello", 0)])], 1⟩) := by rfl
  rw [e1] at h1
  have hr1 : r1 = ⟨[(Method.get, [("/hello", 0)])], 1⟩ := by
    have := congrArg Prod.snd h1
    exact this.symm
  rw [hr1] at h2
  have e2 : (Router.mk [(Method.get, [("/hello", 0)])] 1).insert .get "/hello"
      = (.error "Failed to insert route: conflict",
         ⟨[(Method.get, [("/hello", 0)])], 2⟩) := by rfl
  rw [e2] at h2
  exact absurd (congrArg Prod.fst h2) (by simp)

/-- C8 (amended): registering the same (method, path) twice does not give
two indices; the first insert succeeds and returns the current counter, the
second insert returns a conflict error, and the counter increments on both
attempts (even the failing one). -/
theorem duplicate_route_amended (r : Router) (m : Method) (p : String)
    (h : (treesGet r.trees m).any (fun q => q.1 == p) = false) :
    (r.insert m p).1 = .ok r.handlerCount ∧
    ((r.insert m p).2.insert m p).1 = .error "Failed to insert route: conflict" ∧
    (r.insert m p).2.handlerCount = r.handlerCount + 1 ∧
    ((r.insert m p).2.insert m p).2.handlerCount = r.handlerCount + 2 := by
  have e1 : r.insert m p
      = (.ok r.handlerCount,
         ⟨treesSet r.trees m (treesGet r.trees m ++ [(p, r.handlerCount)]),
          r.handlerCount + 1⟩) := by
    rw [Router.insert, treeInsert, h]
    rfl
  have h2 : (treesGet (treesSet r.trees m (treesGet r.trees m ++ [(p, r.handlerCount)])) m).any
      (fun q => q.1 == p) = true := by
    rw [treesGet_treesSet]
    simp [List.any_append]
  rw [e1]
  refine ⟨rfl, ?_, rfl, ?_⟩
  · rw [Router.insert, treeInsert, h2]
    rfl
  · rw [Router.insert, treeInsert, h2]
    rfl

/-- Witness for C8 amended at the concrete router input. -/
theorem duplicate_route_amended_witness :
    (Router.empty.insert .get "/hello").1 = .ok 0 ∧
    ((Router.empty.insert .get "/hello").2.insert .get "/hello").1
      = .error "Failed to insert route: conflict" ∧
    (Router.empty.insert .get "/hello").2.handlerCount = 0 + 1 ∧
    ((Router.empty.insert .get "/hello").2.insert .get "/hello").2.handlerCount = 0 + 2 :=
  duplicate_route_amended Router.empty .get "/hello" rfl

/-- C9: parse_query splits pairs on the ampersand and each pair on the first
equals sign, skips empty pairs, maps a key with no equals sign to the empty
string, replaces plus with a space in values only, performs no
percent-decoding, and on duplicate keys keeps the last occurrence: for every
query string and key, its lookup agrees with the spec-side last-occurrence
characterisation built from exactly those rules. -/
theorem parse_query_matches_spec (qs k : String) :
    alookup (parse_query qs) k = querySpecLookup qs k := by
  rw [parse_query, parseQueryGo_lookup, querySpecLookup]
  cases ((((listSplitOnChar '&' qs.data).map (fun l => String.mk l)).filter
    (fun p => p ≠ "")).filterMap (specPair k)).getLast? <;> rfl

/-- C10: Response::new preserves a caller-supplied content-type entry
unchanged (the whole header map is untouched when content-type is present),
defaults the headers to exactly the singleton application/json map when no
headers are given, and Response::text always sets content-type text/plain
and defaults the status to 200. -/
theorem response_defaults (b : String) (st : Nat) (hs : List (String × String))
    (v t : String) (sc : Option Nat)
    (h : alookup hs "content-type" = some v) :
    (Response.new b st (some hs)).headers = hs ∧
    alookup (Response.new b st (some hs)).headers "content-type" = some v ∧
    (Response.new b st Option.none).headers = [("content-type", "application/json")] ∧
    (Response.text t sc).headers = [("content-type", "text/plain")] ∧
    (Response.text t sc).status_code = sc.getD 200 ∧
    (Response.text t Option.none).status_code = 200 := by
  have hc : acontains hs "content-type" = true := by
    rw [acontains_iff_alookup, h]
    rfl
  have e1 : (Response.new b st (some hs)).headers = hs := by
    simp [Response.new, hc]
  refine ⟨e1, ?_, ?_, rfl, rfl, rfl⟩
  · rw [e1, h]
  · rfl

/-- Witness for C10 at concrete inputs. -/
theorem response_defaults_witness :
    (Response.new "x" 201 (some [("content-type", "text/csv")])).headers
      = [("content-type", "text/csv")] ∧
    alookup (Response.new "x" 201 (some [("content-type", "text/csv")])).headers
      "content-type" = some "text/csv" ∧
    (Response.new "x" 201 Option.none).headers
      = [("content-type", "application/json")] ∧
    (Response.text "hi" (some 404)).headers = [("content-type", "text/plain")] ∧
    (Response.text "hi" (some 404)).status_code = (some 404).getD 200 ∧
    (Response.text "hi" Option.none).status_code = 200 :=
  response_defaults "x" 201 [("content-type", "text/csv")] "text/csv" "hi" (some 404) rfl

/-! ## Theorems settling claims C3, C4, C6 -/

/-- C3: for every request and registered middleware list, whenever dispatch
reaches the hook phases (argument binding did not fail, validation did not
422, and the handler either succeeded or an on_error middleware produced
the result), the before_request hooks run in registration order and the
after_request hooks run in the exact reverse of registration order: the
dispatch trace is the forward before-trace, then the handler/on-error
events, then the reversal of the forward after-trace. -/
theorem middleware_order (cfg : DispatchCfg)
    (kw1 kw4 : Option (List (String × PyVal))) (v : PyVal)
    (h1 : stagePathGo cfg.sig cfg.req.pathParams Option.none = .ok kw1)
    (h2 : stageBody cfg (stageInjectGo cfg (buildRequestCtx cfg).1 cfg.sig.paramNames
        (stageDeps cfg kw1) Option.none).1 = BodyStage.proceed kw4)
    (h3 : (coreCall cfg (buildRequestCtx cfg).1 (stageQueryGo cfg (queryMap cfg) kw4)).1
        = CoreOut.value v) :
    (serverCall cfg).2
      = beforeTraceOf cfg.middlewares
        ++ (coreCall cfg (buildRequestCtx cfg).1 (stageQueryGo cfg (queryMap cfg) kw4)).2
        ++ (afterTraceFwd cfg.middlewares).reverse := by
  simp only [serverCall, h1, h2, h3]
  cases hn : normalize (serverAfterChain cfg.middlewares (buildRequestCtx cfg).1 v).1
      (stageInjectGo cfg (buildRequestCtx cfg).1 cfg.sig.paramNames
        (stageDeps cfg kw1) Option.none).2 with
  | error e =>
    simp only [buildRequestCtx_trace, serverAfterChain_trace]
  | ok r =>
    simp only [buildRequestCtx_trace, serverAfterChain_trace]

/-- Witness for C3 at a concrete error-path input: middlewares A then B,
the handler raising, middleware A recovering via on_error; before hooks run
A then B, after hooks run B then A. -/
theorem middleware_order_witness :
    (serverCall c3cfg).2
      = [Ev.before 0, Ev.before 1, Ev.handlerCall, Ev.onError 0,
         Ev.after 1, Ev.after 0] := by
  have h := middleware_order c3cfg Option.none Option.none (PyVal.str "recovered")
    rfl rfl rfl
  rw [h]
  rfl

/-- C4 (code divergence exhibit): in the dispatch path of server.rs a
before_request hook returning Python None replaces the request context with
None, and a raising hook is swallowed with the chain continuing; the
dedicated middleware.rs execute_before_middlewares (which the claim and the
refactored handler.rs pipeline describe) leaves the context unchanged on a
None return and aborts the chain with the hook error. -/
theorem before_hook_divergence_exhibit :
    (serverBeforeChain [noneHook] c4ctx).1 = PyVal.none ∧
    execute_before_middlewares [noneHook] c4ctx = .ok c4ctx ∧
    (serverBeforeChain [raiseHook, markHook] c4ctx).1 = PyVal.str "marked" ∧
    execute_before_middlewares [raiseHook, markHook] c4ctx = .error genericError :=
  ⟨rfl, rfl, rfl, rfl⟩

/-- C6: every OPTIONS request (that is not a matched WebSocket upgrade)
bypasses routing: no router lookup and no handler invocation appear in the
trace, only the after_request chain runs, in reverse registration order,
over the empty-body tuple, and the response has status 200, an empty body,
and any tuple-provided header overrides appended after the content-type and
server headers. -/
theorem options_bypass (cfg : ServerCfg)
    (hws : (isWsUpgradeReq cfg.req.headers
        && cfg.wsRoutes.any (fun p => p == cfg.req.path)) = false)
    (hm : cfg.req.method = "OPTIONS") :
    (handleRequest cfg).1.status = 200 ∧
    (handleRequest cfg).1.body = "" ∧
    (handleRequest cfg).1.headers
      = [("content-type", "text/plain"), ("server", serverHeaderValue)]
        ++ (optionsTupleHeaders (optionsFinal cfg.middlewares cfg.req cfg.reqWrap).1).getD [] ∧
    (handleRequest cfg).2 = (afterTraceFwd cfg.middlewares).reverse ∧
    Ev.handlerCall ∉ (handleRequest cfg).2 ∧
    Ev.routerFind ∉ (handleRequest cfg).2 := by
  have he : handleRequest cfg = handleOptions cfg.middlewares cfg.req cfg.reqWrap := by
    rw [handleRequest, hws, hm]
    rfl
  have ht : (handleOptions cfg.middlewares cfg.req cfg.reqWrap).2
      = (afterTraceFwd cfg.middlewares).reverse := by
    simp only [handleOptions, optionsFinal]
    rw [serverAfterGo_trace_some, afterTraceFwd, List.filter_reverse, List.map_reverse]
  refine ⟨by rw [he]; rfl, by rw [he]; rfl, by rw [he]; rfl, by rw [he, ht], ?_, ?_⟩
  · rw [he, ht]
    simp [afterTraceFwd]
  · rw [he, ht]
    simp [afterTraceFwd]

/-- Witness for C6 at a concrete input: one middleware whose after hook
replaces the result with a 3-tuple carrying a header override; the response
stays 200 with an empty body, the override is applied, and the trace is
exactly the one after event. -/
theorem options_bypass_witness :
    (handleRequest c6cfg).1.status = 200 ∧
    (handleRequest c6cfg).1.body = "" ∧
    (handleRequest c6cfg).1.headers
      = [("content-type", "text/plain"), ("server", serverHeaderValue), ("x-custom", "1")] ∧
    (handleRequest c6cfg).2 = [Ev.after 0] ∧
    Ev.handlerCall ∉ (handleRequest c6cfg).2 ∧
    Ev.routerFind ∉ (handleRequest c6cfg).2 := by
  have h := options_bypass c6cfg rfl rfl
  refine ⟨h.1, h.2.1, ?_, ?_, h.2.2.2.2.1, h.2.2.2.2.2⟩
  · rw [h.2.2.1]
    rfl
  · rw [h.2.2.2.1]
    rfl

/-! ## Theorems settling claims C5 and C7 -/

/-- C7 (counterexample): not every response includes a server header; the
101 Switching Protocols reply to a matched WebSocket upgrade (concrete
input: GET /ws with upgrade websocket against a registered /ws route)
carries only the upgrade, connection and accept headers. -/
theorem server_header_claim_false : ¬ serverHeaderClaim := by
  intro h
  obtain ⟨v, hv⟩ := h c7cfg
  have e : alookup (handleRequest c7cfg).1.headers "server" = Option.none := rfl
  rw [e] at hv
  exact Option.noConfusion hv

/-- C7 (amended): every response except the 101 Switching Protocols reply
to a matched WebSocket upgrade — handler responses, 404, 500 and OPTIONS
responses alike — includes the server identification header. -/
theorem server_header_amended (cfg : ServerCfg)
    (h : (isWsUpgradeReq cfg.req.headers
        && cfg.wsRoutes.any (fun p => p == cfg.req.path)) = false) :
    alookup (handleRequest cfg).1.headers "server" = some serverHeaderValue := by
  by_cases hm : (cfg.req.method == "OPTIONS") = true
  · have he : handleRequest cfg = handleOptions cfg.middlewares cfg.req cfg.reqWrap := by
      rw [handleRequest, h, if_neg Bool.false_ne_true, if_pos hm]
    rw [he]
    exact alookup_ct_server _ _
  · have hm2 : (cfg.req.method == "OPTIONS") = false := by
      cases hb : (cfg.req.method == "OPTIONS") with
      | true => exact absurd hb hm
      | false => rfl
    cases hf : Method.fromStr cfg.req.method with
    | none =>
      have he : handleRequest cfg = (http404Response, ([] : List Ev)) := by
        rw [handleRequest, h, if_neg Bool.false_ne_true, if_neg hm, hf]
      rw [he]
      rfl
    | some m =>
      cases hr : cfg.routeMatch with
      | none =>
        have he : handleRequest cfg = (http404Response, [Ev.routerFind]) := by
          rw [handleRequest, h, if_neg Bool.false_ne_true, if_neg hm, hf, hr]
        rw [he]
        rfl
      | some dcfg =>
        rw [handleRequest_routed cfg m dcfg h hm2 hf hr]
        cases hd : (serverCall dcfg).1 with
        | ok r => exact alookup_ct_server _ _
        | error e => rfl

/-- Witness for C7 amended at a concrete non-upgrade input (a 404). -/
theorem server_header_amended_witness :
    alookup (handleRequest c7okCfg).1.headers "server" = some serverHeaderValue :=
  server_header_amended c7okCfg rfl

/-- C5 (counterexample): a recognised HTTP exception not consumed by
on_error is NOT translated into a response carrying its status code: the
serving path uses the call_python_handler defined in server.rs, whose
error branch has no HTTPException check, so at the concrete input of a
handler raising a status-404 HTTPException the request is answered with
the generic 500. -/
theorem http_exception_translation_claim_false : ¬ httpExceptionTranslatedClaim := by
  intro h
  have hinst := h c5scfg c5dcfg httpErr404 rfl rfl rfl rfl rfl rfl
  have e : (handleRequest c5scfg).1.status = 500 := rfl
  exact absurd (e.symm.trans hinst) (by decide)

/-- C5 (amended): every handler failure not consumed by on_error
middleware — recognised HTTP exception or not — propagates out of dispatch
unchanged and is answered by handle_request with the generic 500
application/json response carrying the exception display string as
best-effort detail and the server header; the service function is total,
so the connection and process do not crash.  (The translation carrying an
HTTPException's status, detail and header overrides exists only in the
unused handler.rs pipeline, embedded as handler_error_branch.) -/
theorem unconsumed_error_500 (cfg : ServerCfg) (dcfg : DispatchCfg) (err : PyErr)
    (m : Method) (kw1 kw4 : Option (List (String × PyVal)))
    (hw : (isWsUpgradeReq cfg.req.headers
        && cfg.wsRoutes.any (fun p => p == cfg.req.path)) = false)
    (hm : (cfg.req.method == "OPTIONS") = false)
    (hf : Method.fromStr cfg.req.method = some m)
    (hr : cfg.routeMatch = some dcfg)
    (h1 : stagePathGo dcfg.sig dcfg.req.pathParams Option.none = .ok kw1)
    (h2 : stageBody dcfg (stageInjectGo dcfg (buildRequestCtx dcfg).1 dcfg.sig.paramNames
        (stageDeps dcfg kw1) Option.none).1 = BodyStage.proceed kw4)
    (hcall : dcfg.sig.call (stageQueryGo dcfg (queryMap dcfg) kw4) = .error err)
    (honerr : (onErrorChain dcfg.middlewares (buildRequestCtx dcfg).1 err).1
        = Option.none) :
    (serverCall dcfg).1 = Except.error err ∧
    (handleRequest cfg).1 = http500Response err ∧
    (http500Response err).status = 500 ∧
    (http500Response err).body
      = "\x7b\"detail\":\"" ++ escJson err.msg
        ++ "\",\"error\":\"Internal Server Error\"\x7d" ∧
    alookup (http500Response err).headers "server" = some serverHeaderValue := by
  have hcore : (coreCall dcfg (buildRequestCtx dcfg).1
      (stageQueryGo dcfg (queryMap dcfg) kw4)).1 = CoreOut.fail err := by
    simp only [coreCall, hcall, honerr]
  have hsc : (serverCall dcfg).1 = Except.error err := by
    simp only [serverCall, h1, h2, hcore]
  refine ⟨hsc, ?_, rfl, rfl, ?_⟩
  · rw [handleRequest_routed cfg m dcfg hw hm hf hr, hsc]
  · exact alookup_ct_server _ _

/-- Witness for C5 amended at the concrete input: a handler raising a
recognised HTTPException (status 404, detail, header override) that no
middleware consumes still propagates and is answered with the generic 500
carrying its display string and the server header. -/
theorem unconsumed_error_500_witness :
    (serverCall c5dcfg).1 = Except.error httpErr404 ∧
    (handleRequest c5scfg).1 = http500Response httpErr404 ∧
    (http500Response httpErr404).status = 500 ∧
    (http500Response httpErr404).body
      = "\x7b\"detail\":\"HTTPException\",\"error\":\"Internal Server Error\"\x7d" ∧
    alookup (http500Response httpErr404).headers "server" = some serverHeaderValue := by
  have h := unconsumed_error_500 c5scfg c5dcfg httpErr404 Method.get
    Option.none Option.none rfl rfl rfl rfl rfl rfl rfl rfl
  exact ⟨h.1, h.2.1, h.2.2.1, h.2.2.2.1.trans (by decide), h.2.2.2.2⟩

/-! ## Theorems settling claims C1 and C2 -/

/-- C1 (counterexample): argument-binding precedence is not "path params
over dependencies": at the concrete input where the path parameter x is
"1" and the dependency resolver also returns x (as "2"), the kwargs passed
to the handler hold the dependency value, because the dependency merge sets
every returned pair without an already-bound check. -/
theorem binding_precedence_claim_false : ¬ bindPrecedenceClaim := by
  intro h
  have hinst := h c1cfg "x" "1" (some [("x", PyVal.str "1")])
    (some [("x", PyVal.str "2")]) (PyVal.str "1")
    (by decide) (by decide) rfl rfl rfl
  have e : getK (stageQueryGo c1cfg (queryMap c1cfg) (some [("x", PyVal.str "2")])) "x"
      = some (PyVal.str "2") := rfl
  rw [e] at hinst
  simp at hinst

/-- C1 (amended): path parameters bind first and the dependency stage may
overwrite them, but for every name the dependency resolver does not bind,
the path-parameter-derived value survives all later stages (request and
injected types, form fields, body, query): the kwargs finally passed to
the handler hold the coerced path value — in particular a query parameter
sharing a name with a path parameter is ignored. -/
theorem binding_precedence_amended (cfg : DispatchCfg) (key v : String)
    (kw1 kw4 : Option (List (String × PyVal))) (pv : PyVal)
    (hnd : (cfg.req.pathParams.map Prod.fst).Nodup)
    (hkv : (key, v) ∈ cfg.req.pathParams)
    (hdeps : depsBinds cfg key = false)
    (h1 : stagePathGo cfg.sig cfg.req.pathParams Option.none = .ok kw1)
    (h2 : stageBody cfg (stageInjectGo cfg (buildRequestCtx cfg).1 cfg.sig.paramNames
        (stageDeps cfg kw1) Option.none).1 = BodyStage.proceed kw4)
    (hpv : pathBoundValue cfg.sig key v = .ok pv) :
    getK (stageQueryGo cfg (queryMap cfg) kw4) key = some pv := by
  have s1 : getK kw1 key = some pv :=
    stagePathGo_lookup cfg.sig key v pv cfg.req.pathParams Option.none kw1 hnd hkv hpv h1
  have s2 : getK (stageDeps cfg kw1) key = some pv := by
    rw [stageDeps_preserve cfg kw1 key hdeps]
    exact s1
  have s3 := stageInjectGo_preserve cfg (buildRequestCtx cfg).1 key pv
    cfg.sig.paramNames (stageDeps cfg kw1) Option.none s2
  have s4 := stageBody_preserve cfg _ kw4 key pv s3 h2
  exact stageQueryGo_preserve cfg key pv (queryMap cfg) kw4 s4

/-- Witness for C1 amended at a concrete input: integer-typed path
parameter x bound from "1", a query string trying to rebind x (ignored)
and feeding the declared name q; the handler receives the coerced path
value for x. -/
theorem binding_precedence_amended_witness :
    getK (stageQueryGo c1okCfg (queryMap c1okCfg) (some [("x", PyVal.int 1)])) "x"
      = some (PyVal.int 1) :=
  binding_precedence_amended c1okCfg "x" "1" (some [("x", PyVal.int 1)])
    (some [("x", PyVal.int 1)]) (PyVal.int 1)
    (by decide) (by decide) rfl rfl rfl rfl

/-- The 422 body the source formats is exactly the json.dumps rendering of
the object with an error field and the list-valued detail field. -/
theorem validationBody_as_dict (errs : List PyVal) :
    validationErrorBody (jsonDumps (PyVal.list errs))
      = jsonDumps (PyVal.dict [("error", PyVal.str "Validation failed"),
          ("detail", PyVal.list errs)]) := by
  have e1 : escJson "error" = "error" := by decide
  have e2 : escJson "detail" = "detail" := by decide
  have e3 : escJson "Validation failed" = "Validation failed" := by decide
  simp only [validationErrorBody, jsonDumps, jsonDumpsFields, e1, e2, e3]
  apply String.ext
  simp only [String.data_append]
  simp

/-- C2: a request with a cached body schema whose JSON body fails
validation short-circuits dispatch with a 422 application/json response
whose body is the JSON object with an error field and the list-valued
detail field (the dumped errors list); no background task is captured, the
handler is never invoked and no after_request hook runs — the trace holds
only the before events. -/
theorem validation_422_short_circuit (cfg : DispatchCfg)
    (kw1 : Option (List (String × PyVal)))
    (validate : PyVal → Except (List PyVal) PyVal) (j : PyVal) (errs : List PyVal)
    (h1 : stagePathGo cfg.sig cfg.req.pathParams Option.none = .ok kw1)
    (hb : cfg.sig.paramNames.any (fun n => n == "body") = true)
    (hnb : containsK (stageInjectGo cfg (buildRequestCtx cfg).1 cfg.sig.paramNames
        (stageDeps cfg kw1) Option.none).1 "body" = false)
    (hct : contentTypeIsJson cfg.req.headers = true)
    (hne : cfg.req.body.isEmpty = false)
    (hpj : cfg.req.body.parseJson = some j)
    (hmod : cfg.sig.pydanticBodyModel = some validate)
    (hval : validate j = .error errs) :
    (serverCall cfg).1
      = .ok ⟨jsonDumps (PyVal.dict [("error", PyVal.str "Validation failed"),
          ("detail", PyVal.list errs)]), "application/json", 422,
          Option.none, Option.none⟩ ∧
    (serverCall cfg).2 = beforeTraceOf cfg.middlewares ∧
    (serverCall cfg).2.all isBeforeEv = true := by
  have hneeds : (cfg.sig.paramNames.any (fun n => n == "body")
      && !(containsK (stageInjectGo cfg (buildRequestCtx cfg).1 cfg.sig.paramNames
        (stageDeps cfg kw1) Option.none).1 "body")) = true := by
    rw [hb, hnb]
    rfl
  have hjson : (contentTypeIsJson cfg.req.headers && !cfg.req.body.isEmpty) = true := by
    rw [hct, hne]
    rfl
  have hbody : stageBody cfg (stageInjectGo cfg (buildRequestCtx cfg).1 cfg.sig.paramNames
      (stageDeps cfg kw1) Option.none).1
      = BodyStage.invalid (jsonDumps (PyVal.list errs)) := by
    simp only [stageBody, hneeds, hjson, hpj, hmod, hval]
    simp
  have hsc : serverCall cfg
      = (.ok ⟨validationErrorBody (jsonDumps (PyVal.list errs)), "application/json", 422,
          Option.none, Option.none⟩, (buildRequestCtx cfg).2) := by
    simp only [serverCall, h1, hbody]
  refine ⟨?_, ?_, ?_⟩
  · have hp1 : (serverCall cfg).1
        = .ok ⟨validationErrorBody (jsonDumps (PyVal.list errs)), "application/json", 422,
            Option.none, Option.none⟩ := by rw [hsc]
    rw [hp1, validationBody_as_dict]
  · have hp2 : (serverCall cfg).2 = (buildRequestCtx cfg).2 := by rw [hsc]
    rw [hp2, buildRequestCtx_trace]
  · have hp2 : (serverCall cfg).2 = (buildRequestCtx cfg).2 := by rw [hsc]
    rw [hp2, buildRequestCtx_trace]
    exact beforeTraceOf_only_before _

/-- Witness for C2 at the concrete input: POSTing a JSON body with a bad
age field against a cached schema yields the 422 with structured detail,
an empty trace (no handler, no after hooks). -/
theorem validation_422_short_circuit_witness :
    (serverCall c2cfg).1
      = .ok ⟨jsonDumps (PyVal.dict [("error", PyVal.str "Validation failed"),
          ("detail", PyVal.list c2errs)]), "application/json", 422,
          Option.none, Option.none⟩ ∧
    (serverCall c2cfg).2 = [] ∧
    (serverCall c2cfg).2.all isBeforeEv = true := by
  have h := validation_422_short_circuit c2cfg Option.none c2validate
    (PyVal.dict [("age", PyVal.str "not-a-number")]) c2errs
    rfl rfl rfl rfl rfl rfl rfl rfl
  exact ⟨h.1, h.2.1.trans rfl, h.2.2⟩

end Ignyx
